import Mathlib

/-!
Verification development for the SI unit library (`si/units/__init__.py`).

The core data model and operations are translated from the source:
atomic unit descriptors (`SIUnit`), compound units as ordered triple
lists, the expression parser `decomposition_from_pure_string` (with an
explicit fuel argument standing for the number of iterations of the
Python `while` loop plus recursion depth), prefix expansion
(`get_prefixed`), the algebra operations, and the two renderers.

External collaborators (the unit registry, the prefix table and the
concrete unit catalog) are modelled from the spec, as marked on each
definition; the parser takes the registry as an explicit argument.
-/

/-- The prefixing policy stored in an atomic unit descriptor.  In the
source this is the `prefixes` field, holding a falsy value, the string
"kg", "m2" or "m3", `True`, or a list of prefix codes. -/
inductive PrefixPolicy where
| noPolicy : PrefixPolicy
| kgPolicy : PrefixPolicy
| m2Policy : PrefixPolicy
| m3Policy : PrefixPolicy
| allPolicy : PrefixPolicy
| customPolicy : List String → PrefixPolicy

deriving instance DecidableEq for PrefixPolicy

/-- Atomic unit descriptor, translated from class `SIUnit`.  The
numeric scale (`unit`) is modelled as a rational. -/
structure SIUnit where
  unit : ℚ
  symbol : List String
  name : List String
  prefixes : PrefixPolicy

deriving instance DecidableEq for SIUnit

/-- A compound-unit triple: (scale factor, unit reference, exponent). -/
abbrev Triple := ℚ × SIUnit × ℤ

/-- Compound unit value: an ordered list of triples, translated from
class `SICompoundUnit` (a tuple subclass in the source). -/
abbrev SICompoundUnit := List Triple

/-- The Python exceptions that `decomposition_from_pure_string` can
raise: the consecutive-slash `Exception`, the "Can not convert to
unit" `Exception` (carrying the unconverted remainder), the
`IndexError` from `s[1]` when `^` ends the string, and the
`ValueError` from `int(s[1])` on a non-digit. -/
inductive PyError where
| consecutiveSlash : PyError
| cannotConvert : List Char → PyError
| indexError : PyError
| valueError : PyError

deriving instance DecidableEq for PyError

deriving instance DecidableEq for Except

/-- The injected unit-registry lookup, i.e. `si.register.search_prefixed`:
maps a token to its (prefix factor, unit descriptor) resolution, `none`
standing for the `LookupError` the source catches. -/
abbrev Registry := List Char → Option (ℚ × SIUnit)

/-- The longest-match scan `for x in range(len(s),0,-1)` around
`search_prefixed(s[:x])`: try prefixes of `s` of length `x`, `x-1`, ...,
`1`; return the matched length and resolution. -/
def tryMatch (reg : Registry) (s : List Char) : Nat → Option (Nat × ℚ × SIUnit)
| 0 => none
| x + 1 =>
  match reg (s.take (x + 1)) with
  | some pu => some (x + 1, pu)
  | none => tryMatch reg s x

/-- Negate every exponent of a triple list, as in the parser's
`[(prefix, unit, -power) for ...]` comprehension. -/
def negTriples (l : List Triple) : List Triple :=
  l.map (fun t => (t.1, t.2.1, -t.2.2))

/-- Exception-propagating sequencing of a parser result with a
continuation, mirroring how a raised Python exception aborts the loop. -/
def andThen (a : Option (Except PyError (List Triple)))
    (k : List Triple → Option (Except PyError (List Triple))) :
    Option (Except PyError (List Triple)) :=
  match a with
  | none => none
  | some (Except.error e) => some (Except.error e)
  | some (Except.ok l) => k l

/-- The value of a digit character, as `int(s[1])` computes it. -/
def digitVal (d : Char) : ℤ := (d.toNat - '0'.toNat : Nat)

/-- `power * (-1)` when negating mode is active. -/
def condNeg (pospow : Bool) (p : ℤ) : ℤ := if pospow then p else -p

/-- The `^`-shorthand after a matched unit token: `s[1]` raises
`IndexError` past the end, `int(s[1])` raises `ValueError` on a
non-digit, and otherwise the digit's value becomes the exponent.
`next` is the continuation of the parser loop. -/
def expPart (next : List Char → Option (Except PyError (List Triple)))
    (pospow : Bool) (pu : ℚ × SIUnit) :
    List Char → Option (Except PyError (List Triple))
| [] => some (Except.error PyError.indexError)
| d :: s4 =>
  if d.isDigit then
    andThen (next s4) (fun tail =>
      some (Except.ok ((pu.1, pu.2, condNeg pospow (digitVal d)) :: tail)))
  else some (Except.error PyError.valueError)

/-- A parenthesized group: parse the substring `inner` recursively,
negate its exponents when negating mode is active, then continue the
loop on `after` with the mode reset. -/
def groupPart (next : List Char → Option (Except PyError (List Triple)))
    (pospow : Bool) (inner after : List Char) :
    Option (Except PyError (List Triple)) :=
  andThen (next inner) (fun inside =>
    andThen (next after) (fun tail =>
      some (Except.ok ((if pospow then inside else negTriples inside) ++ tail))))

/-- After a matched unit token: read the optional `^digit` exponent,
apply the sign of the negating mode, emit the triple and continue. -/
def tokenPart (next : List Char → Option (Except PyError (List Triple)))
    (pospow : Bool) (pu : ℚ × SIUnit) :
    List Char → Option (Except PyError (List Triple))
| [] =>
  andThen (next []) (fun tail =>
    some (Except.ok ((pu.1, pu.2, condNeg pospow 1) :: tail)))
| e :: s2 =>
  if e = '^' then expPart next pospow pu s2
  else
    andThen (next (e :: s2)) (fun tail =>
      some (Except.ok ((pu.1, pu.2, condNeg pospow 1) :: tail)))

/-- The body of `SICompoundUnit.decomposition_from_pure_string`,
translated statement by statement.  `fuel` bounds the number of loop
iterations (each Python `continue`/`break` consumes one unit); `none`
means the bound was hit, `some` is the Python outcome.  The state is
the remaining string `s` and the `pospow` flag. -/
def parseGo (reg : Registry) : List Char → Nat → Bool →
    Option (Except PyError (List Triple))
| [], _, _ => some (Except.ok [])
| c :: rest, fuel0, pospow =>
  match fuel0 with
  | 0 => none
  | fuel + 1 =>
  if c = '*' ∨ c = ' ' then
    parseGo reg rest fuel pospow
  else if c = '/' then
    if pospow then parseGo reg rest fuel false
    else some (Except.error PyError.consecutiveSlash)
  else if c = '(' then
    -- end = s.find(")"); on failure Python yields -1, so s[1:end] is
    -- s[1:-1] and s[end+1:] is s itself: the state does not shrink.
    match rest.findIdx? (fun d => d = ')') with
    | some e =>
      groupPart (fun t => parseGo reg t fuel true) pospow
        (rest.take e) (rest.drop (e + 1))
    | none =>
      groupPart (fun t => parseGo reg t fuel true) pospow
        rest.dropLast (c :: rest)
  else
    match tryMatch reg (c :: rest) (rest.length + 1) with
    | none => some (Except.error (PyError.cannotConvert (c :: rest)))
    | some (_x, pu) =>
      tokenPart (fun t => parseGo reg t fuel true) pospow pu ((c :: rest).drop _x)

/-- `SICompoundUnit.decomposition_from_pure_string`: run the parser
loop with `pospow` initially true. -/
def decomposition_from_pure_string (reg : Registry) (s : List Char) (fuel : Nat) :
    Option (Except PyError (List Triple)) :=
  parseGo reg s fuel true

/-- Modelled from the spec: the external Prefix Table collaborator
(module `si.prefixes`), mapping the standard SI prefix codes (plus
"da") to their numeric scale factors. -/
def pfxTable : List (String × ℚ) :=
  [("Y", 10 ^ 24), ("Z", 10 ^ 21), ("E", 10 ^ 18), ("P", 10 ^ 15),
   ("T", 10 ^ 12), ("G", 10 ^ 9), ("M", 10 ^ 6), ("k", 10 ^ 3),
   ("h", 10 ^ 2), ("da", 10),
   ("d", 1 / 10), ("c", 1 / 10 ^ 2), ("m", 1 / 10 ^ 3), ("u", 1 / 10 ^ 6),
   ("n", 1 / 10 ^ 9), ("p", 1 / 10 ^ 12), ("f", 1 / 10 ^ 15),
   ("a", 1 / 10 ^ 18), ("z", 1 / 10 ^ 21), ("y", 1 / 10 ^ 24)]

/-- Modelled from the spec: `prefix_value(code)` of the Prefix Table,
i.e. `getattr(si.prefixes, p)`; only ever applied to known codes. -/
def pfxValue (p : String) : ℚ :=
  ((pfxTable.find? (fun e => e.1 == p)).map (fun e => e.2)).getD 0

/-- Modelled from the spec: `prefix_from_value(value, tex)` of the
Prefix Table; fails (`none`) when the value is not an exact known
prefix scale.  In TeX mode the micro prefix is spelled with a TeX
macro, as the source doctest for "ufortnight" shows. -/
def pfx_from_value (v : ℚ) (tex : Bool) : Option String :=
  (pfxTable.find? (fun e => e.2 == v)).map
    (fun e => if tex ∧ e.1 = "u" then "\\mu\x7b\x7d" else e.1)

/-- `SIUnit.all_prefixes`: `list('YZEPTGMkhdcmunpfazy') + ["da"]`. -/
def all_prefixes : List String :=
  ["Y", "Z", "E", "P", "T", "G", "M", "k", "h", "d", "c", "m", "u",
   "n", "p", "f", "a", "z", "y", "da"]

/-- `SIUnit._istex`: the form is bracketed by dollar signs
(`startswith("$") and endswith("$")`, stated on the character list). -/
def _istex (s : String) : Bool :=
  (match s.data.head? with
   | some c => c = '$'
   | none => false) &&
  (match s.data.getLast? with
   | some c => c = '$'
   | none => false)

/-- `SIUnit._valid_python_name`: starts with an ASCII letter or
underscore and contains only ASCII letters, digits and underscores
(`string.letters`/`string.digits` under the default locale). -/
def _valid_python_name (s : String) : Bool :=
  (match s.data.head? with
   | some c => c.isAlpha || c = '_'
   | none => false)
  && s.data.all (fun c => c.isAlpha || c.isDigit || c = '_')

/-- `SIUnit.get_python_names`: every symbol that is a valid identifier,
else the first valid-identifier long name, else an error (`none`). -/
def SIUnit.get_python_names (u : SIUnit) : Option (List String) :=
  let fromSym := u.symbol.filter _valid_python_name
  if fromSym.isEmpty then
    match u.name.find? _valid_python_name with
    | some n => some [n]
    | none => none
  else some fromSym

/-- `SIUnit.get_prefixed`.  The `assert` statements of the "kg", "m2"
and "m3" branches are modelled as `none` on failure.  Python2 treats an
empty custom prefix list as falsy, hence the empty-list case. -/
def SIUnit.get_prefixed (u : SIUnit) : Option (List (String × ℚ)) :=
  match u.prefixes with
  | PrefixPolicy.noPolicy => some []
  | PrefixPolicy.customPolicy [] => some []
  | PrefixPolicy.kgPolicy =>
    if u.name = ["kilogram"] then
      let g := u.unit / 1000
      some (("g", g) ::
        all_prefixes.filterMap (fun p =>
          if p ≠ "k" then some (p ++ "g", g * pfxValue p) else none))
    else none
  | PrefixPolicy.m2Policy =>
    if u.name = ["square metre"] then
      some (all_prefixes.map (fun p => (p ++ "m2", u.unit * pfxValue p ^ 2)))
    else none
  | PrefixPolicy.m3Policy =>
    if u.name = ["cubic metre"] then
      some (all_prefixes.map (fun p => (p ++ "m3", u.unit * pfxValue p ^ 3)))
    else none
  | PrefixPolicy.allPolicy =>
    (u.get_python_names).map (fun ns =>
      ns.flatMap (fun n => all_prefixes.map (fun p => (p ++ n, u.unit * pfxValue p))))
  | PrefixPolicy.customPolicy l =>
    (u.get_python_names).map (fun ns =>
      ns.flatMap (fun n => l.map (fun p => (p ++ n, u.unit * pfxValue p))))

/-- Modelled from the spec: the concrete unit catalog is external
(populated by catalog code into the registry); these descriptors stand
for the metre entry. -/
def metre : SIUnit :=
  { unit := 1, symbol := ["m"], name := ["metre"], prefixes := PrefixPolicy.allPolicy }

/-- Modelled from the spec: catalog entry for the second. -/
def second : SIUnit :=
  { unit := 1, symbol := ["s"], name := ["second"], prefixes := PrefixPolicy.allPolicy }

/-- Modelled from the spec: catalog entry for the kilogram (the unit
whose canonical name is "kilogram", carrying the kg prefixing policy). -/
def kilogram : SIUnit :=
  { unit := 1, symbol := ["kg"], name := ["kilogram"], prefixes := PrefixPolicy.kgPolicy }

/-- Modelled from the spec: catalog entry for the newton. -/
def newton : SIUnit :=
  { unit := 1, symbol := ["N"], name := ["newton"], prefixes := PrefixPolicy.allPolicy }

/-- Modelled from the spec: catalog entry for the hour. -/
def hour : SIUnit :=
  { unit := 3600, symbol := ["h"], name := ["hour"], prefixes := PrefixPolicy.noPolicy }

/-- Modelled from the spec: the association list behind the sample
registry, resolving the possibly-prefixed spellings the examples use
(`search_prefixed` of the external Unit Registry). -/
def registryList : List (List Char × (ℚ × SIUnit)) :=
  [("kg".data, (1, kilogram)), ("N".data, (1, newton)),
   ("km".data, (1000, metre)), ("m".data, (1, metre)),
   ("s".data, (1, second)), ("h".data, (1, hour))]

/-- Modelled from the spec: a concrete instance of the injected
registry-lookup capability. -/
def demoRegistry : Registry := fun s =>
  (registryList.find? (fun p => p.1 == s)).map (fun p => p.2)

/-- `SIUnit.__div__` (unit by unit). -/
def SIUnit.div (a b : SIUnit) : SICompoundUnit := [(1, a, 1), (1, b, -1)]

/-- `SIUnit.__rdiv__` with `other == 1` (reciprocal of a unit). -/
def SIUnit.rdivOne (a : SIUnit) : SICompoundUnit := [(1, a, -1)]

/-- `SIUnit.__pow__`. -/
def SIUnit.pow (a : SIUnit) (n : ℤ) : SICompoundUnit := [(1, a, n)]

/-- `SIUnit.__mul__` (unit by unit). -/
def SIUnit.mul (a b : SIUnit) : SICompoundUnit := [(1, a, 1), (1, b, 1)]

/-- `SICompoundUnit.__div__` with an `SIUnit` divisor. -/
def SICompoundUnit.divUnit (c : SICompoundUnit) (u : SIUnit) : SICompoundUnit :=
  c ++ [(1, u, -1)]

/-- `SICompoundUnit.__div__` with an `SICompoundUnit` divisor. -/
def SICompoundUnit.divComp (c d : SICompoundUnit) : SICompoundUnit :=
  c ++ negTriples d

/-- `SICompoundUnit.__rdiv__` with an `SIUnit` dividend, exactly as the
source writes it: `((1, other, -1),) + tuple(self)`. -/
def SICompoundUnit.rdivUnit (c : SICompoundUnit) (u : SIUnit) : SICompoundUnit :=
  (1, u, -1) :: c

/-- `SICompoundUnit.__rdiv__` with `other == 1`. -/
def SICompoundUnit.rdivOne (c : SICompoundUnit) : SICompoundUnit := negTriples c

/-- `SICompoundUnit.__pow__`. -/
def SICompoundUnit.pow (c : SICompoundUnit) (n : ℤ) : SICompoundUnit :=
  c.map (fun t => (t.1, t.2.1, t.2.2 * n))

/-- `SICompoundUnit.__mul__` with an `SIUnit` factor. -/
def SICompoundUnit.mulUnit (c : SICompoundUnit) (u : SIUnit) : SICompoundUnit :=
  c ++ [(1, u, 1)]

/-- Operands of the overloaded algebra: the literal `1`, an atomic
unit, or a compound value (spec section 9 suggests this closed variant
set for the operator dispatch). -/
inductive UnitLike where
| one : UnitLike
| atom : SIUnit → UnitLike
| comp : SICompoundUnit → UnitLike

/-- Python's `/` dispatch over unit-like operands: try the left
operand's `__div__` and fall back to the right operand's `__rdiv__`;
`none` is the `TypeError` raised when both return `NotImplemented`. -/
def divide : UnitLike → UnitLike → Option SICompoundUnit
| UnitLike.atom a, UnitLike.atom b => some (SIUnit.div a b)
| UnitLike.atom a, UnitLike.comp c => some (SICompoundUnit.rdivUnit c a)
| UnitLike.comp c, UnitLike.atom b => some (SICompoundUnit.divUnit c b)
| UnitLike.comp c, UnitLike.comp d => some (SICompoundUnit.divComp c d)
| UnitLike.one, UnitLike.atom a => some (SIUnit.rdivOne a)
| UnitLike.one, UnitLike.comp c => some (SICompoundUnit.rdivOne c)
| _, _ => none

/-- `SIUnit.preferred_symbol`: first entry of `symbol + name` that is
not TeX-wrapped and, in ASCII mode, not a unicode string.  Python2
unicode-typed entries are modelled as strings containing a non-ASCII
character. -/
def SIUnit.preferred_symbol (u : SIUnit) (allow_unicode : Bool) : Option String :=
  if allow_unicode then
    (u.symbol ++ u.name).find? (fun s => !_istex s)
  else
    (u.symbol ++ u.name).find? (fun s => s.data.all (fun c => c.toNat < 128) && !_istex s)

/-- `SIUnit.tex`: the unwrapped content of the first TeX-wrapped
symbol, else `preferred_symbol(False)`. -/
def SIUnit.texForm (u : SIUnit) : Option String :=
  match u.symbol.find? _istex with
  | some s => some (String.mk (s.data.drop 1).dropLast)
  | none => u.preferred_symbol false

/-- The prefix-and-symbol part of one term of `SICompoundUnit.__str__`:
either the kilogram-through-gram special case (prefix code for
`prefix*1000`, then "g") or a prefix code plus the preferred symbol. -/
def strTermCore (t : Triple) : Option String :=
  if t.2.1.name = ["kilogram"] then
    match (if t.1 * 1000 ≠ 1 then pfx_from_value (t.1 * 1000) false else some "") with
    | none => none
    | some pre => some (pre ++ "g")
  else
    match (if t.1 ≠ 1 then pfx_from_value t.1 false else some "") with
    | none => none
    | some pre =>
      match t.2.1.preferred_symbol true with
      | none => none
      | some sym => some (pre ++ sym)

/-- One term of `SICompoundUnit.__str__`'s loop: the slash when the
exponent is negative, the core, and the `^power` suffix on the
absolute exponent when it is not 1. -/
def strTerm (t : Triple) : Option String :=
  match strTermCore t with
  | none => none
  | some cs =>
    some ((if t.2.2 < 0 then "/" else "") ++ cs ++
      (if (if t.2.2 < 0 then -t.2.2 else t.2.2) ≠ 1 then
        "^" ++ toString (if t.2.2 < 0 then -t.2.2 else t.2.2) else ""))

/-- The concatenating loop of `SICompoundUnit.__str__`; `none` is a
raised lookup error. -/
def strBody : List Triple → Option String
| [] => some ""
| t :: ts =>
  match strTerm t with
  | none => none
  | some a =>
    match strBody ts with
    | none => none
    | some b => some (a ++ b)

/-- `SICompoundUnit.__str__`: assemble the terms and prepend `1` when
the assembled string starts with a slash. -/
def SICompoundUnit.toStr (c : SICompoundUnit) : Option String :=
  match strBody c with
  | none => none
  | some r => some (if r.data.head? = some '/' then "1" ++ r else r)

/-- The kilogram-to-gram substitution of `SICompoundUnit.tex`
(`fixed_units`): each triple becomes (factor, TeX name, exponent),
with kilogram rewritten through the fake gram object. -/
def texFixed (c : SICompoundUnit) : List (ℚ × Option String × ℤ) :=
  c.map (fun t =>
    if t.2.1.name = ["kilogram"] then (t.1 * 1000, some "g", t.2.2)
    else (t.1, t.2.1.texForm, t.2.2))

/-- One TeX term: prefix spelling (TeX mode), unit TeX name, and the
braced exponent form when the exponent is not 1. -/
def texTerm (t : ℚ × Option String × ℤ) : Option String :=
  match (if t.1 ≠ 1 then pfx_from_value t.1 true else some "") with
  | none => none
  | some pre =>
    match t.2.1 with
    | none => none
    | some usym =>
      some (if t.2.2 ≠ 1 then "\x7b" ++ pre ++ usym ++ "\x7d^" ++ toString t.2.2
            else pre ++ usym)

/-- `" ".join(...)`. -/
def texJoin (l : List String) : String := String.intercalate " " l

/-- `SICompoundUnit.tex`: partition into numerator (positive exponent)
and denominator (negated exponent, stored positive), render each side,
default the numerator to "1" when its string is empty, and wrap in the
fraction macro when the denominator is non-empty. -/
def SICompoundUnit.tex (c : SICompoundUnit) : Option String :=
  let fixed := texFixed c
  let num := fixed.filter (fun t => decide (0 < t.2.2))
  let den := (fixed.filter (fun t => decide (t.2.2 < 0))).map
    (fun t => (t.1, t.2.1, -t.2.2))
  match num.mapM texTerm with
  | none => none
  | some ns =>
    match den.mapM texTerm with
    | none => none
    | some ds =>
      let nstr := if texJoin ns = "" then "1" else texJoin ns
      if den.isEmpty then some ("\x7b" ++ nstr ++ "\x7d")
      else some ("\x7b" ++ nstr ++ " \\over " ++ texJoin ds ++ "\x7d")

/-- `SICompoundUnit.to_unit`: fold the triples into a numeric scale. -/
def SICompoundUnit.to_unit (c : SICompoundUnit) : ℚ :=
  c.foldl (fun acc t => acc * (t.1 * t.2.1.unit) ^ t.2.2) 1

/-- Monotonicity helper for `andThen`: enlarging the fuel of both the
first component and the continuation preserves a settled outcome. -/
theorem andThen_mono {a a2 : Option (Except PyError (List Triple))}
    {k k2 : List Triple → Option (Except PyError (List Triple))}
    {r : Except PyError (List Triple)}
    (ha : ∀ x, a = some x → a2 = some x)
    (hk : ∀ l q, k l = some q → k2 l = some q)
    (h : andThen a k = some r) : andThen a2 k2 = some r := by
  cases ha3 : a with
  | none => rw [ha3] at h; exact absurd h (by simp [andThen])
  | some x =>
    rw [ha3] at h
    rw [ha x ha3]
    cases x with
    | error e => simpa [andThen] using h
    | ok l =>
      simp only [andThen] at h ⊢
      exact hk l r h

/-- Monotonicity of the exponent-shorthand step in its continuation. -/
theorem expPart_mono {next next2 : List Char → Option (Except PyError (List Triple))}
    {pospow : Bool} {pu : ℚ × SIUnit} {s : List Char} {r : Except PyError (List Triple)}
    (hn : ∀ t x, next t = some x → next2 t = some x)
    (h : expPart next pospow pu s = some r) : expPart next2 pospow pu s = some r := by
  cases s with
  | nil => exact h
  | cons d s4 =>
    simp only [expPart] at h ⊢
    by_cases h5 : d.isDigit
    · simp only [if_pos h5] at h ⊢
      exact andThen_mono (fun x hx => hn _ _ hx) (fun l q hp => hp) h
    · simp only [if_neg h5] at h ⊢
      exact h

/-- Monotonicity of the group step in its continuation. -/
theorem groupPart_mono {next next2 : List Char → Option (Except PyError (List Triple))}
    {pospow : Bool} {inner after : List Char} {r : Except PyError (List Triple)}
    (hn : ∀ t x, next t = some x → next2 t = some x)
    (h : groupPart next pospow inner after = some r) :
    groupPart next2 pospow inner after = some r := by
  unfold groupPart at h ⊢
  exact andThen_mono (fun x hx => hn _ _ hx)
    (fun l q hl => andThen_mono (fun y hy => hn _ _ hy) (fun l2 q2 hp => hp) hl) h

/-- Monotonicity of the token step in its continuation. -/
theorem tokenPart_mono {next next2 : List Char → Option (Except PyError (List Triple))}
    {pospow : Bool} {pu : ℚ × SIUnit} {s : List Char} {r : Except PyError (List Triple)}
    (hn : ∀ t x, next t = some x → next2 t = some x)
    (h : tokenPart next pospow pu s = some r) : tokenPart next2 pospow pu s = some r := by
  cases s with
  | nil =>
    simp only [tokenPart] at h ⊢
    exact andThen_mono (fun x hx => hn _ _ hx) (fun l q hp => hp) h
  | cons e s2 =>
    simp only [tokenPart] at h ⊢
    by_cases h4 : e = '^'
    · simp only [if_pos h4] at h ⊢
      exact expPart_mono hn h
    · simp only [if_neg h4] at h ⊢
      exact andThen_mono (fun x hx => hn _ _ hx) (fun l q hp => hp) h

/-- Fuel monotonicity: once the parser loop settles (returns or
raises) within some fuel bound, one more unit of fuel gives the same
outcome. -/
theorem parseGo_mono (reg : Registry) (fuel : Nat) :
    ∀ (s : List Char) (b : Bool) (r : Except PyError (List Triple)),
      parseGo reg s fuel b = some r → parseGo reg s (fuel + 1) b = some r := by
  induction fuel with
  | zero =>
    intro s b r h
    cases s with
    | nil => exact h
    | cons c rest => exact absurd h (by simp [parseGo])
  | succ f ih =>
    intro s b r h
    cases s with
    | nil => exact h
    | cons c rest =>
      simp only [parseGo] at h ⊢
      by_cases h1 : c = '*' ∨ c = ' '
      · simp only [if_pos h1] at h ⊢
        exact ih rest b r h
      simp only [if_neg h1] at h ⊢
      by_cases h2 : c = '/'
      · simp only [if_pos h2] at h ⊢
        cases b with
        | true => exact ih rest false r h
        | false => exact h
      simp only [if_neg h2] at h ⊢
      by_cases h3 : c = '('
      · simp only [if_pos h3] at h ⊢
        cases hfind : rest.findIdx? (fun d => d = ')') with
        | some e =>
          simp only [hfind] at h ⊢
          exact groupPart_mono (fun t x hx => ih _ _ _ hx) h
        | none =>
          simp only [hfind] at h ⊢
          exact groupPart_mono (fun t x hx => ih _ _ _ hx) h
      simp only [if_neg h3] at h ⊢
      cases htm : tryMatch reg (c :: rest) (rest.length + 1) with
      | none => simp only [htm] at h ⊢; exact h
      | some xpu =>
        obtain ⟨x, pu⟩ := xpu
        simp only [htm] at h ⊢
        exact tokenPart_mono (fun t x hx => ih _ _ _ hx) h

/-- Fuel monotonicity, general form. -/
theorem parseGo_mono_le (reg : Registry) {fuel fuel2 : Nat} (hle : fuel ≤ fuel2)
    {s : List Char} {b : Bool} {r : Except PyError (List Triple)}
    (h : parseGo reg s fuel b = some r) : parseGo reg s fuel2 b = some r := by
  induction hle with
  | refl => exact h
  | step _ ih2 => exact parseGo_mono reg _ _ _ _ ih2

/-- Fuel monotonicity of the parser entry point. -/
theorem decomposition_mono (reg : Registry) {fuel fuel2 : Nat} (hle : fuel ≤ fuel2)
    {s : List Char} {r : Except PyError (List Triple)}
    (h : decomposition_from_pure_string reg s fuel = some r) :
    decomposition_from_pure_string reg s fuel2 = some r :=
  parseGo_mono_le reg hle h

/-- The substring "m/" (which is `s[1:-1]` of "(m/s") parses, under the
sample registry, to the single metre triple — or runs out of fuel. -/
theorem mslash_cases (f : Nat) :
    parseGo demoRegistry ['m', '/'] f true = none ∨
    parseGo demoRegistry ['m', '/'] f true = some (Except.ok [(1, metre, 1)]) := by
  match f with
  | 0 => exact Or.inl rfl
  | 1 => exact Or.inl rfl
  | (g + 2) =>
    refine Or.inr (parseGo_mono_le demoRegistry (Nat.le_add_left 2 g) ?_)
    rfl

/-- On "(m/s" the scan for ')' fails, Python's `find` returns -1, the
parser recurses on `s[1:-1]` = "m/" and then continues on `s[0:] = s`:
the loop never terminates, so no fuel bound settles it. -/
theorem paren_loop_none (f : Nat) :
    parseGo demoRegistry ['(', 'm', '/', 's'] f true = none := by
  induction f with
  | zero => rfl
  | succ g ih =>
    have h1 : parseGo demoRegistry ['(', 'm', '/', 's'] (g + 1) true =
        groupPart (fun t => parseGo demoRegistry t g true) true
          ['m', '/'] ['(', 'm', '/', 's'] := rfl
    rw [h1, groupPart]
    rcases mslash_cases g with h | h
    · rw [h]; rfl
    · rw [h]
      simp only [andThen, ih]

/-- C1: parsing "kgNkm/m" returns exactly the four triples
[(1, kilogram, 1), (1, newton, 1), (1000, metre, 1), (1, metre, -1)],
in that order, for every sufficient fuel bound (5 loop iterations). -/
theorem claim_C1_parse_kgNkm (fuel : Nat) (hf : 5 ≤ fuel) :
    decomposition_from_pure_string demoRegistry "kgNkm/m".data fuel =
      some (Except.ok
        [(1, kilogram, 1), (1, newton, 1), (1000, metre, 1), (1, metre, -1)]) :=
  decomposition_mono demoRegistry hf (by rfl)

/-- Witness for C1 at the concrete fuel bound 5. -/
theorem claim_C1_parse_kgNkm_witness :
    5 ≤ 5 ∧
    decomposition_from_pure_string demoRegistry "kgNkm/m".data 5 =
      some (Except.ok
        [(1, kilogram, 1), (1, newton, 1), (1000, metre, 1), (1, metre, -1)]) :=
  ⟨Nat.le_refl 5, claim_C1_parse_kgNkm 5 (Nat.le_refl 5)⟩

/-- C2: the claim says every input terminates with a value or an
error; in fact on "(m/s" the loop never settles — for every fuel bound
the parser is still running (the code diverges on this input). -/
theorem claim_C2_divergence_on_unmatched_paren (fuel : Nat) :
    decomposition_from_pure_string demoRegistry "(m/s".data fuel = none :=
  paren_loop_none fuel

/-- C3: the claim says an unmatched '(' raises a group error; in fact
on "(m/s" the code never raises anything (it diverges), and on "(zz"
it raises the unknown-token error for the mangled substring "z" — the
code has no group error at all. -/
theorem claim_C3_no_group_error :
    (∀ fuel, decomposition_from_pure_string demoRegistry "(m/s".data fuel = none) ∧
    decomposition_from_pure_string demoRegistry "(zz".data 10 =
      some (Except.error (PyError.cannotConvert ['z'])) :=
  ⟨fun fuel => paren_loop_none fuel, by rfl⟩

/-- C4 counterexample: "(m/s)^2" does not parse to the m/s triples
with doubled exponents; the '^' after the group is not consumed and
parsing fails with the unknown-token error on "^2". -/
theorem claim_C4_counterexample :
    decomposition_from_pure_string demoRegistry "(m/s)^2".data 20 =
      some (Except.error (PyError.cannotConvert ['^', '2'])) ∧
    some (Except.error (PyError.cannotConvert ['^', '2'])) ≠
      some (Except.ok [((1 : ℚ), metre, (2 : ℤ)), (1, second, -2)]) :=
  ⟨by rfl, by decide⟩

/-- C4 amended: a parenthesized group is not followed by an exponent:
"(m/s)" parses to the triples of "m/s", appending "^2" makes parsing
fail with an unknown-token error on "^2", and negative mode applied to
a group negates every exponent inside ("/(m/s)"). -/
theorem claim_C4_amended_group_exponent :
    decomposition_from_pure_string demoRegistry "(m/s)".data 20 =
      some (Except.ok [(1, metre, 1), (1, second, -1)]) ∧
    decomposition_from_pure_string demoRegistry "(m/s)^2".data 20 =
      some (Except.error (PyError.cannotConvert ['^', '2'])) ∧
    decomposition_from_pure_string demoRegistry "/(m/s)".data 20 =
      some (Except.ok [(1, metre, -1), (1, second, 1)]) :=
  ⟨by rfl, by rfl, by rfl⟩

/-- C5: dividing a compound by a unit appends (1, u, -1) as the claim
says, but dividing a unit by a compound goes through
`SICompoundUnit.__rdiv__`, which produces (1, u, -1) prepended to the
compound's triples unchanged — the reverse of what the claim (and the
mathematics of division) requires. -/
theorem claim_C5_division_directions :
    divide (UnitLike.atom metre) (UnitLike.comp [(1, hour, 1)]) =
      some [(1, metre, -1), (1, hour, 1)] ∧
    [((1 : ℚ), metre, (-1 : ℤ)), (1, hour, 1)] ≠
      [((1 : ℚ), metre, (1 : ℤ)), (1, hour, -1)] ∧
    divide (UnitLike.comp [(1, hour, 1)]) (UnitLike.atom metre) =
      some [(1, hour, 1), (1, metre, -1)] :=
  ⟨rfl, by decide, rfl⟩

/-- C6: kilogram-style expansion emits ("g", scale/1000) first, then
prefix+"g" scaled for every standard prefix except "k", and no emitted
name contains "kg". -/
theorem claim_C6_kilogram_expansion (q : ℚ) :
    SIUnit.get_prefixed { kilogram with unit := q } =
      some (("g", q / 1000) ::
        (all_prefixes.filter (fun p => p != "k")).map
          (fun p => (p ++ "g", q / 1000 * pfxValue p))) ∧
    (((SIUnit.get_prefixed { kilogram with unit := q }).getD []).all
      (fun pr => !decide (['k', 'g'] <:+: pr.1.data))) = true :=
  ⟨rfl, rfl⟩

/-- C7: a '/' reached while negating mode is already active raises the
consecutive-slash error at once, for any registry, remaining input and
fuel; concretely both "m//s" and "m/ /s" fail this way. -/
theorem claim_C7_consecutive_slash :
    (∀ (reg : Registry) (rest : List Char) (fuel : Nat),
      parseGo reg ('/' :: rest) (fuel + 1) false =
        some (Except.error PyError.consecutiveSlash)) ∧
    decomposition_from_pure_string demoRegistry "m//s".data 10 =
      some (Except.error PyError.consecutiveSlash) ∧
    decomposition_from_pure_string demoRegistry "m/ /s".data 10 =
      some (Except.error PyError.consecutiveSlash) :=
  ⟨fun reg rest fuel => rfl, by rfl, by rfl⟩

/-- C8: applying `__pow__` twice multiplies each triple's exponent by
the product of the exponents: (A^2)^3 = A^6 structurally, with prefix
factors and unit references unchanged. -/
theorem claim_C8_pow_pow (A : SICompoundUnit) :
    SICompoundUnit.pow (SICompoundUnit.pow A 2) 3 = SICompoundUnit.pow A 6 := by
  simp only [SICompoundUnit.pow, List.map_map]
  refine List.map_congr_left (fun t _ => ?_)
  simp only [Function.comp_apply, Prod.mk.injEq, true_and]
  ring

/-- C10: when a matched unit token is immediately followed by '^' as
the last character of the input, the parser raises the out-of-range
IndexError (from `int(s[1])`), not one of the named parser errors. -/
theorem claim_C10_exp_at_end (reg : Registry) (fuel : Nat) (b : Bool) (c : Char)
    (rest : List Char) (x : Nat) (pu : ℚ × SIUnit)
    (h1 : ¬(c = '*' ∨ c = ' ')) (h2 : c ≠ '/') (h3 : c ≠ '(')
    (h4 : tryMatch reg (c :: rest) (rest.length + 1) = some (x, pu))
    (h5 : (c :: rest).drop x = ['^']) :
    parseGo reg (c :: rest) (fuel + 1) b = some (Except.error PyError.indexError) := by
  simp only [parseGo, if_neg h1, if_neg h2, if_neg h3, h4, h5]
  rfl

/-- Witness for C10 on the input "m^" with the sample registry. -/
theorem claim_C10_exp_at_end_witness :
    ¬('m' = '*' ∨ 'm' = ' ') ∧
    tryMatch demoRegistry ['m', '^'] 2 = some (1, (1, metre)) ∧
    ['m', '^'].drop 1 = ['^'] ∧
    parseGo demoRegistry ['m', '^'] 1 true = some (Except.error PyError.indexError) :=
  ⟨by decide, by rfl, by rfl,
    claim_C10_exp_at_end demoRegistry 0 true 'm' ['^'] 1 (1, metre)
      (by decide) (by decide) (by decide) (by rfl) (by rfl)⟩

/-- A negative-exponent term renders with a leading slash. -/
theorem strTerm_neg {t : Triple} (hneg : t.2.2 < 0) {a : String}
    (h : strTerm t = some a) : ∃ l, a.data = '/' :: l := by
  unfold strTerm at h
  cases hc : strTermCore t with
  | none => rw [hc] at h; exact Option.noConfusion h
  | some cs =>
    simp only [hc, if_pos hneg, Option.some.injEq] at h
    subst h
    exact ⟨_, rfl⟩

/-- When the first triple has a negative exponent, the assembled body
string starts with a slash. -/
theorem strBody_neg_head {t : Triple} {ts : List Triple} (hneg : t.2.2 < 0)
    {r : String} (h : strBody (t :: ts) = some r) : ∃ l, r.data = '/' :: l := by
  simp only [strBody] at h
  cases ha : strTerm t with
  | none => rw [ha] at h; exact Option.noConfusion h
  | some a =>
    simp only [ha] at h
    cases hb : strBody ts with
    | none => rw [hb] at h; exact Option.noConfusion h
    | some b2 =>
      simp only [hb, Option.some.injEq] at h
      obtain ⟨l, hl⟩ := strTerm_neg hneg ha
      subst h
      exact ⟨l ++ b2.data, by simp [String.data_append, hl]⟩

/-- The kilogram substitution preserves exponents, so an all-negative
compound stays all-negative after it. -/
theorem texFixed_neg {C : SICompoundUnit} (h : ∀ t ∈ C, t.2.2 < 0) :
    ∀ u ∈ texFixed C, u.2.2 < 0 := by
  intro u hu
  rcases List.mem_map.mp hu with ⟨t, ht, rfl⟩
  by_cases hk : t.2.1.name = ["kilogram"]
  · simpa [hk] using h t ht
  · simpa [hk] using h t ht

/-- C9: the plain-text rendering of a nonempty all-negative compound
begins with '1' then '/', and its TeX rendering is a fraction with
numerator "1" and the denominator terms carrying the exponents stored
positive; concretely, parsing "/h" yields [(1, hour, -1)], whose
plain-text rendering is "1/h" and whose TeX rendering is the 1-over-h
fraction. -/
theorem claim_C9_pure_reciprocal_rendering :
    (decomposition_from_pure_string demoRegistry "/h".data 10 =
        some (Except.ok [(1, hour, -1)]) ∧
      SICompoundUnit.toStr [(1, hour, -1)] = some "1/h" ∧
      SICompoundUnit.tex [(1, hour, -1)] = some "\x7b1 \\over h\x7d") ∧
    ∀ (C : SICompoundUnit), (∀ t ∈ C, t.2.2 < 0) → C ≠ [] →
      ((∀ out, SICompoundUnit.toStr C = some out → ∃ l, out.data = '1' :: '/' :: l) ∧
        SICompoundUnit.tex C =
          Option.map (fun ds => "\x7b1 \\over " ++ texJoin ds ++ "\x7d")
            (((texFixed C).map (fun u => (u.1, u.2.1, -u.2.2))).mapM texTerm)) := by
  constructor
  · refine ⟨by rfl, by rfl, ?_⟩
    unfold SICompoundUnit.tex
    decide
  intro C hneg hne
  have hfix : ∀ u ∈ texFixed C, u.2.2 < 0 := texFixed_neg hneg
  constructor
  · intro out hout
    simp only [SICompoundUnit.toStr] at hout
    cases C with
    | nil => exact absurd rfl hne
    | cons t ts =>
      cases hb : strBody (t :: ts) with
      | none => rw [hb] at hout; exact Option.noConfusion hout
      | some r =>
        simp only [hb] at hout
        obtain ⟨l, hl⟩ := strBody_neg_head (hneg t (List.mem_cons_self t ts)) hb
        have hcond : r.data.head? = some '/' := by rw [hl]; rfl
        rw [if_pos hcond] at hout
        simp only [Option.some.injEq] at hout
        subst hout
        exact ⟨l, by simp [String.data_append, hl]⟩
  · have hnum : (texFixed C).filter (fun u => decide (0 < u.2.2)) = [] :=
      List.filter_eq_nil_iff.mpr (fun u hu => by
        have h2 := hfix u hu
        simp only [decide_eq_true_eq]
        omega)
    have hden : (texFixed C).filter (fun u => decide (u.2.2 < 0)) = texFixed C :=
      List.filter_eq_self.mpr (fun u hu => by
        simp only [decide_eq_true_eq]
        exact hfix u hu)
    have hfne : texFixed C ≠ [] := by
      cases C with
      | nil => exact absurd rfl hne
      | cons t ts => simp [texFixed]
    have hisEmpty : ((texFixed C).map (fun u => (u.1, u.2.1, -u.2.2))).isEmpty = false := by
      cases hC2 : texFixed C with
      | nil => exact absurd hC2 hfne
      | cons u us => rfl
    simp only [SICompoundUnit.tex, hnum, hden]
    cases hmapM : ((texFixed C).map (fun u => (u.1, u.2.1, -u.2.2))).mapM texTerm with
    | none => simp only [hmapM]; rfl
    | some ds => simp only [hmapM, hisEmpty]; rfl

/-- Witness for C9 at the concrete pure reciprocal [(1, hour, -1)]. -/
theorem claim_C9_pure_reciprocal_rendering_witness :
    (∀ t ∈ ([((1 : ℚ), hour, (-1 : ℤ))] : SICompoundUnit), t.2.2 < 0) ∧
    ([((1 : ℚ), hour, (-1 : ℤ))] : SICompoundUnit) ≠ [] ∧
    ((∀ out, SICompoundUnit.toStr [((1 : ℚ), hour, (-1 : ℤ))] = some out →
        ∃ l, out.data = '1' :: '/' :: l) ∧
      SICompoundUnit.tex [((1 : ℚ), hour, (-1 : ℤ))] =
        Option.map (fun ds => "\x7b1 \\over " ++ texJoin ds ++ "\x7d")
          (((texFixed [((1 : ℚ), hour, (-1 : ℤ))]).map
            (fun u => (u.1, u.2.1, -u.2.2))).mapM texTerm)) :=
  ⟨by decide, by decide,
    claim_C9_pure_reciprocal_rendering.2 [((1 : ℚ), hour, (-1 : ℤ))]
      (by decide) (by decide)⟩

/-- Witness for C2 at the concrete fuel bound 100. -/
theorem claim_C2_divergence_on_unmatched_paren_witness :
    decomposition_from_pure_string demoRegistry "(m/s".data 100 = none :=
  claim_C2_divergence_on_unmatched_paren 100

/-- Witness for C3 at the concrete fuel bound 30. -/
theorem claim_C3_no_group_error_witness :
    decomposition_from_pure_string demoRegistry "(m/s".data 30 = none :=
  claim_C3_no_group_error.1 30

/-- Witness for C6 at scale 1. -/
theorem claim_C6_kilogram_expansion_witness :
    SIUnit.get_prefixed { kilogram with unit := (1 : ℚ) } =
      some (("g", (1 : ℚ) / 1000) ::
        (all_prefixes.filter (fun p => p != "k")).map
          (fun p => (p ++ "g", (1 : ℚ) / 1000 * pfxValue p))) :=
  (claim_C6_kilogram_expansion 1).1

/-- Witness for C7 on the concrete state of a second slash. -/
theorem claim_C7_consecutive_slash_witness :
    parseGo demoRegistry ('/' :: "s".data) 1 false =
      some (Except.error PyError.consecutiveSlash) :=
  claim_C7_consecutive_slash.1 demoRegistry "s".data 0

/-- Witness for C8 at a concrete compound value. -/
theorem claim_C8_pow_pow_witness :
    SICompoundUnit.pow (SICompoundUnit.pow [((1 : ℚ), metre, (2 : ℤ))] 2) 3 =
      SICompoundUnit.pow [((1 : ℚ), metre, (2 : ℤ))] 6 :=
  claim_C8_pow_pow [((1 : ℚ), metre, (2 : ℤ))]
